import Mathlib

/-
Verification of the task3 measurement protocol: a rate-paced TCP sender
(`client.py: transmit_data`) and a chunk-consuming receiver
(`server.py: process_client` / `launch_server`).

The sender's loop and the receiver's loop are embedded as functions over an
explicit list of per-iteration environment events (the outcome of each
socket call), so that every counter update, branch and exit path of the
source is mirrored one-to-one.  Elapsed wall-clock time is an explicit
rational parameter, since the code only uses it in the final metric
formulas.  Byte strings are lists of naturals.
-/

set_option autoImplicit false

namespace Task3

/-- `chunk_size = 40` in `transmit_data`. -/
def chunk_size : Nat := 40

/-- The 3-byte acknowledgment token `b'ACK'` (ASCII `A`, `C`, `K`). -/
def ackBytes : List Nat := [65, 67, 75]

/-- Python slice `data_buffer[pos : pos + chunk_size]` for `0 ≤ pos`:
it truncates at the end of the buffer (no wraparound inside a slice). -/
def segmentAt (buf : List Nat) (pos : Nat) : List Nat :=
  (buf.drop pos).take chunk_size

/-- The sender's mutable loop variables in `transmit_data`. -/
structure SenderSt where
  total_bytes : Nat
  packet_count : Nat
  ack_count : Nat
  lost_count : Nat
  pos : Nat
deriving Repr, DecidableEq

/-- All sender counters start at zero, `pos = 0`. -/
def initSender : SenderSt := ⟨0, 0, 0, 0, 0⟩

/-- Environment outcome of one iteration of the sender's `while` loop:
`sendall` raises (`sendErr`), or `recv(3)` returns some bytes (`recvOk`),
times out (`recvTimeout`), or raises a non-timeout error (`recvErr`). -/
inductive SendEvent where
  | sendErr : SendEvent
  | recvOk : List Nat → SendEvent
  | recvTimeout : SendEvent
  | recvErr : SendEvent
deriving Repr, DecidableEq

/-- The three statements after a successful `sendall`:
`packet_count += 1`, `total_bytes += len(segment)`,
`pos = (pos + chunk_size) % len(data_buffer)`. -/
def afterSend (buf : List Nat) (s : SenderSt) : SenderSt :=
  { s with
      packet_count := s.packet_count + 1
      total_bytes := s.total_bytes + (segmentAt buf s.pos).length
      pos := (s.pos + chunk_size) % buf.length }

/-- `afterSend` followed by `lost_count += 1` (the `except socket.timeout`
branch). -/
def lostStep (buf : List Nat) (s : SenderSt) : SenderSt :=
  let s1 := afterSend buf s
  { s1 with lost_count := s1.lost_count + 1 }

/-- `afterSend` followed by the `if response == b'ACK': ack_count += 1`
statement, for `recv` result `resp`. -/
def recvOkStep (buf : List Nat) (resp : List Nat) (s : SenderSt) : SenderSt :=
  let s1 := afterSend buf s
  if resp = ackBytes then { s1 with ack_count := s1.ack_count + 1 } else s1

/-- Result of running the sender's loop: final counters, whether an
exception escaped to the outer `except` clause, and the list of payload
segments written, in order. -/
structure LoopOut where
  state : SenderSt
  errored : Bool
  segments : List (List Nat)
deriving Repr, DecidableEq

/-- The `while time.time() < finish` loop of `transmit_data`.  Each list
element is one iteration in which the time check passed; an exhausted list
is the normal time-expiry exit.  `if not segment: break` exits when the
slice is empty; `sendall` or a non-timeout `recv` error aborts the loop
with `errored = true` (caught by the outer `except`). -/
def senderLoop (buf : List Nat) : List SendEvent → SenderSt → LoopOut
  | [], s => ⟨s, false, []⟩
  | e :: rest, s =>
    let seg := segmentAt buf s.pos
    if seg = [] then ⟨s, false, []⟩
    else
      match e with
      | .sendErr => ⟨s, true, []⟩
      | .recvOk resp =>
        let out := senderLoop buf rest (recvOkStep buf resp s)
        ⟨out.state, out.errored, seg :: out.segments⟩
      | .recvTimeout =>
        let out := senderLoop buf rest (lostStep buf s)
        ⟨out.state, out.errored, seg :: out.segments⟩
      | .recvErr =>
        ⟨afterSend buf s, true, [seg]⟩

/-- The record returned by `transmit_data` (dict keys `throughput`,
`goodput`, `loss`, `bytes`, `packets`, `acks`, `time`). -/
structure TrialResult where
  throughput : ℚ
  goodput : ℚ
  loss : ℚ
  bytes : Nat
  packets : Nat
  acks : Nat
  time : ℚ
deriving Repr, DecidableEq

/-- The `finally` block of `transmit_data`: `achieved_rate`,
`effective_rate` and `loss_ratio` computed once from the final counters. -/
def mkResult (s : SenderSt) (elapsed : ℚ) : TrialResult :=
  { throughput := if 0 < elapsed then (s.total_bytes : ℚ) / elapsed else 0
    goodput := if 0 < elapsed then ((s.ack_count * chunk_size : Nat) : ℚ) / elapsed else 0
    loss := if 0 < s.packet_count then (s.lost_count : ℚ) / (s.packet_count : ℚ) else 0
    bytes := s.total_bytes
    packets := s.packet_count
    acks := s.ack_count
    time := elapsed }

/-- `sleep_interval = 1.0 / (rate / chunk_size)`, computed after
`connect` and before the send loop. -/
def sleep_interval (rate : ℚ) : ℚ := 1 / (rate / (chunk_size : ℚ))

/-- Observable outcome of one call of `transmit_data` after `connect`
succeeded: the returned record (`none` when an exception escapes before
the `try` block), the final counters, whether the outer `except` fired,
how many times `client_sock.close()` ran, and whether an exception
propagated to the caller. -/
structure TransmitOut where
  result : Option TrialResult
  finalState : SenderSt
  errorCaught : Bool
  connected : Bool
  closeCount : Nat
  raised : Bool
deriving Repr, DecidableEq

/-- `transmit_data` after `connect`: the pacing computation
`1.0 / (rate / chunk_size)` divides by zero when `rate = 0`, raising
before the `try/finally`, so the socket is never closed on that path;
otherwise the loop runs and the `finally` block closes the socket once
and returns the result record. -/
def transmit_data (rate : ℚ) (buf : List Nat) (events : List SendEvent)
    (elapsed : ℚ) : TransmitOut :=
  if rate = 0 then
    { result := none, finalState := initSender, errorCaught := false
      connected := true, closeCount := 0, raised := true }
  else
    let out := senderLoop buf events initSender
    { result := some (mkResult out.state elapsed), finalState := out.state
      errorCaught := out.errored, connected := true, closeCount := 1
      raised := false }

/-- The receiver's mutable loop variables in `process_client`. -/
structure RecvState where
  total_data : Nat
  packet_num : Nat
  max_size : Nat
deriving Repr, DecidableEq

/-- All receiver counters start at zero. -/
def initRecv : RecvState := ⟨0, 0, 0⟩

/-- Environment outcome of one `client_conn.recv(4096)` call:
returns bytes (`ok`, the empty list being orderly closure), or raises
(`err`). -/
inductive RecvEvent where
  | ok : List Nat → RecvEvent
  | err : RecvEvent
deriving Repr, DecidableEq

/-- One socket action of the receiver: a completed read, or a write of
acknowledgment bytes. -/
inductive SAction where
  | read : List Nat → SAction
  | write : List Nat → SAction
deriving Repr, DecidableEq

/-- The loop body of `process_client` for one non-empty packet:
`total_data += len`, `packet_num += 1`,
`max_size = len if len > max_size else max_size`. -/
def recvStep (s : RecvState) (bytes : List Nat) : RecvState :=
  { total_data := s.total_data + bytes.length
    packet_num := s.packet_num + 1
    max_size := if s.max_size < bytes.length then bytes.length else s.max_size }

/-- Result of the receiver's read loop: final counters, whether `recv`
raised, and the interleaved trace of reads and acknowledgment writes. -/
structure RecvLoopOut where
  state : RecvState
  errored : Bool
  trace : List SAction
deriving Repr, DecidableEq

/-- The `for packet in iter(lambda: client_conn.recv(4096), b'')` loop of
`process_client`: an empty read is the sentinel ending the loop; each
non-empty read updates the counters and is followed by
`client_conn.sendall(b'ACK')` before the next read; a `recv` error
propagates out of `process_client`. -/
def recvLoop : List RecvEvent → RecvState → RecvLoopOut
  | [], s => ⟨s, false, []⟩
  | .err :: _, s => ⟨s, true, []⟩
  | .ok bytes :: rest, s =>
    if bytes = [] then ⟨s, false, [.read []]⟩
    else
      let out := recvLoop rest (recvStep s bytes)
      ⟨out.state, out.errored, .read bytes :: .write ackBytes :: out.trace⟩

/-- The statistics printed by `process_client` after its loop ends. -/
structure RecvStats where
  total_data : Nat
  packet_num : Nat
  max_size : Nat
  elapsed : ℚ
  data_rate : ℚ
deriving Repr, DecidableEq

/-- The statistics block at the end of `process_client`:
`data_rate = total_data / elapsed_time if elapsed_time > 0 else 0`. -/
def mkStats (s : RecvState) (elapsed : ℚ) : RecvStats :=
  { total_data := s.total_data, packet_num := s.packet_num
    max_size := s.max_size, elapsed := elapsed
    data_rate := if 0 < elapsed then (s.total_data : ℚ) / elapsed else 0 }

/-- Observable outcome of one receiver session in `launch_server` after
`accept`: the reported statistics (`none` when `process_client` raised
before reaching its reporting block), whether the `except` clause logged
an error, whether the `finally` clause closed each socket, and whether an
exception propagated out of `launch_server`. -/
structure SessionOut where
  reported : Option RecvStats
  errorLogged : Bool
  connClosed : Bool
  listenClosed : Bool
  crashed : Bool
deriving Repr, DecidableEq

/-- The `try: process_client … except … finally: close both` structure of
`launch_server` after `accept`.  When the read loop raises, the exception
skips the statistics block of `process_client`, is caught and logged, and
the `finally` clause still closes the accepted connection and the
listening socket. -/
def launch_server (events : List RecvEvent) (elapsed : ℚ) : SessionOut :=
  let out := recvLoop events initRecv
  if out.errored then
    { reported := none, errorLogged := true
      connClosed := true, listenClosed := true, crashed := false }
  else
    { reported := some (mkStats out.state elapsed), errorLogged := false
      connClosed := true, listenClosed := true, crashed := false }

/-- Whether the Python `socket` module exposes the `TCP_QUICKACK`
attribute on this platform. -/
structure Platform where
  hasQuickack : Bool
deriving Repr, DecidableEq

/-- Socket options set by the configuration step. -/
structure SockOpts where
  nodelay : Bool
  quickack : Bool
deriving Repr, DecidableEq

/-- Outcome of the option-setting step: the options set, whether the
unsupported-platform warning was printed, and whether an exception
escaped. -/
structure OptOutcome where
  opts : SockOpts
  warned : Bool
  raisedErr : Bool
deriving Repr, DecidableEq

/-- `set_client_options` in `client.py`: `TCP_NODELAY` when Nagle is
disabled; `TCP_QUICKACK` attempted when delayed ACK is disabled, with
`AttributeError` caught and a warning printed when the platform lacks
the attribute. -/
def set_client_options (plat : Platform) (use_nagle use_delayed_ack : Bool) :
    OptOutcome :=
  let o1 : SockOpts := { nodelay := !use_nagle, quickack := false }
  if use_delayed_ack then { opts := o1, warned := false, raisedErr := false }
  else if plat.hasQuickack then
    { opts := { o1 with quickack := true }, warned := false, raisedErr := false }
  else { opts := o1, warned := true, raisedErr := false }

/-- `adjust_socket_options` in `server.py`: identical body to the client's
option step. -/
def adjust_socket_options (plat : Platform) (use_nagle use_delayed_ack : Bool) :
    OptOutcome :=
  let o1 : SockOpts := { nodelay := !use_nagle, quickack := false }
  if use_delayed_ack then { opts := o1, warned := false, raisedErr := false }
  else if plat.hasQuickack then
    { opts := { o1 with quickack := true }, warned := false, raisedErr := false }
  else { opts := o1, warned := true, raisedErr := false }

/-- Spec formula: `throughputBps = bytesSent/elapsed`, 0 when elapsed is
0 (from the spec's words, refinement target). -/
def specThroughput (bytes : Nat) (elapsed : ℚ) : ℚ :=
  if elapsed = 0 then 0 else (bytes : ℚ) / elapsed

/-- Spec formula: `goodputBps = (acksReceived*chunkSize)/elapsed`, 0 when
elapsed is 0 (from the spec's words, refinement target). -/
def specGoodput (acks : Nat) (elapsed : ℚ) : ℚ :=
  if elapsed = 0 then 0 else ((acks * chunk_size : Nat) : ℚ) / elapsed

/-- Spec formula: `dataRateBps = bytesReceived/elapsedSeconds`, 0 when
elapsed is 0 (from the spec's words, refinement target). -/
def specDataRate (bytes : Nat) (elapsed : ℚ) : ℚ :=
  if elapsed = 0 then 0 else (bytes : ℚ) / elapsed

/-- A concrete 4096-byte source buffer (byte `k` holds `k mod 256`). -/
def cbuf : List Nat := (List.range 4096).map (fun b => b % 256)

/- Equation lemmas for `senderLoop`, one per loop branch. -/

theorem senderLoop_nil (buf : List Nat) (s : SenderSt) :
    senderLoop buf [] s = ⟨s, false, []⟩ := rfl

theorem senderLoop_cons_break (buf : List Nat) (e : SendEvent)
    (rest : List SendEvent) (s : SenderSt) (h : segmentAt buf s.pos = []) :
    senderLoop buf (e :: rest) s = ⟨s, false, []⟩ := by
  cases e <;> simp [senderLoop, h]

theorem senderLoop_sendErr (buf : List Nat) (rest : List SendEvent)
    (s : SenderSt) (h : ¬ segmentAt buf s.pos = []) :
    senderLoop buf (SendEvent.sendErr :: rest) s = ⟨s, true, []⟩ := by
  simp [senderLoop, h]

theorem senderLoop_recvOk (buf resp : List Nat) (rest : List SendEvent)
    (s : SenderSt) (h : ¬ segmentAt buf s.pos = []) :
    senderLoop buf (SendEvent.recvOk resp :: rest) s
      = ⟨(senderLoop buf rest (recvOkStep buf resp s)).state,
         (senderLoop buf rest (recvOkStep buf resp s)).errored,
         segmentAt buf s.pos :: (senderLoop buf rest (recvOkStep buf resp s)).segments⟩ := by
  simp [senderLoop, h, recvOkStep]

theorem senderLoop_recvTimeout (buf : List Nat) (rest : List SendEvent)
    (s : SenderSt) (h : ¬ segmentAt buf s.pos = []) :
    senderLoop buf (SendEvent.recvTimeout :: rest) s
      = ⟨(senderLoop buf rest (lostStep buf s)).state,
         (senderLoop buf rest (lostStep buf s)).errored,
         segmentAt buf s.pos :: (senderLoop buf rest (lostStep buf s)).segments⟩ := by
  simp [senderLoop, h, lostStep]

theorem senderLoop_recvErr (buf : List Nat) (rest : List SendEvent)
    (s : SenderSt) (h : ¬ segmentAt buf s.pos = []) :
    senderLoop buf (SendEvent.recvErr :: rest) s
      = ⟨afterSend buf s, true, [segmentAt buf s.pos]⟩ := by
  simp [senderLoop, h]

/- Counter bookkeeping of the three per-iteration step functions. -/

theorem afterSend_counts (buf : List Nat) (s : SenderSt) :
    (afterSend buf s).packet_count = s.packet_count + 1 ∧
    (afterSend buf s).ack_count = s.ack_count ∧
    (afterSend buf s).lost_count = s.lost_count := ⟨rfl, rfl, rfl⟩

theorem lostStep_counts (buf : List Nat) (s : SenderSt) :
    (lostStep buf s).packet_count = s.packet_count + 1 ∧
    (lostStep buf s).ack_count = s.ack_count ∧
    (lostStep buf s).lost_count = s.lost_count + 1 := ⟨rfl, rfl, rfl⟩

theorem recvOkStep_counts (buf resp : List Nat) (s : SenderSt) :
    (recvOkStep buf resp s).packet_count = s.packet_count + 1 ∧
    (recvOkStep buf resp s).lost_count = s.lost_count ∧
    (if resp = ackBytes then (recvOkStep buf resp s).ack_count = s.ack_count + 1
     else (recvOkStep buf resp s).ack_count = s.ack_count) := by
  unfold recvOkStep afterSend
  by_cases hr : resp = ackBytes <;> simp [hr]

/-- Accounting inequality: the sum `ack_count + lost_count` never exceeds
`packet_count` along any run of the sender's loop. -/
theorem senderLoop_counts_le (buf : List Nat) (events : List SendEvent) :
    ∀ s : SenderSt,
      s.ack_count + s.lost_count ≤ s.packet_count →
      (senderLoop buf events s).state.ack_count
          + (senderLoop buf events s).state.lost_count
        ≤ (senderLoop buf events s).state.packet_count := by
  induction events with
  | nil => intro s h; simpa [senderLoop_nil] using h
  | cons e rest ih =>
    intro s h
    by_cases hseg : segmentAt buf s.pos = []
    · simpa [senderLoop_cons_break buf e rest s hseg] using h
    · cases e with
      | sendErr => simpa [senderLoop_sendErr buf rest s hseg] using h
      | recvOk resp =>
        rw [senderLoop_recvOk buf resp rest s hseg]
        refine ih (recvOkStep buf resp s) ?_
        have hc := recvOkStep_counts buf resp s
        by_cases hr : resp = ackBytes
        · rw [if_pos hr] at hc; omega
        · rw [if_neg hr] at hc; omega
      | recvTimeout =>
        rw [senderLoop_recvTimeout buf rest s hseg]
        refine ih (lostStep buf s) ?_
        have hc := lostStep_counts buf s
        omega
      | recvErr =>
        rw [senderLoop_recvErr buf rest s hseg]
        dsimp only
        have hc := afterSend_counts buf s
        omega

/-- Accounting equality is preserved when every iteration's wait resolves
either by receiving exactly the token `b'ACK'` or by timing out. -/
theorem senderLoop_counts_eq (buf : List Nat) (events : List SendEvent)
    (hgood : ∀ e ∈ events, e = SendEvent.recvOk ackBytes ∨ e = SendEvent.recvTimeout) :
    ∀ s : SenderSt,
      s.ack_count + s.lost_count = s.packet_count →
      (senderLoop buf events s).state.ack_count
          + (senderLoop buf events s).state.lost_count
        = (senderLoop buf events s).state.packet_count := by
  induction events with
  | nil => intro s h; simpa [senderLoop_nil] using h
  | cons e rest ih =>
    intro s h
    have hrest : ∀ e ∈ rest, e = SendEvent.recvOk ackBytes ∨ e = SendEvent.recvTimeout :=
      fun e' he' => hgood e' (List.mem_cons_of_mem _ he')
    by_cases hseg : segmentAt buf s.pos = []
    · simpa [senderLoop_cons_break buf e rest s hseg] using h
    · rcases hgood e (List.mem_cons_self e rest) with he | he
      · subst he
        rw [senderLoop_recvOk buf ackBytes rest s hseg]
        refine ih hrest (recvOkStep buf ackBytes s) ?_
        have hc := recvOkStep_counts buf ackBytes s
        rw [if_pos rfl] at hc
        omega
      · subst he
        rw [senderLoop_recvTimeout buf rest s hseg]
        refine ih hrest (lostStep buf s) ?_
        have hc := lostStep_counts buf s
        omega

/-- When no iteration raises (`sendall` succeeds and `recv` either returns
bytes or times out), the outer `except` clause of `transmit_data` never
fires. -/
theorem senderLoop_no_error (buf : List Nat) (events : List SendEvent)
    (hgood : ∀ e ∈ events, e = SendEvent.recvTimeout ∨ ∃ r, e = SendEvent.recvOk r) :
    ∀ s : SenderSt, (senderLoop buf events s).errored = false := by
  induction events with
  | nil => intro s; rfl
  | cons e rest ih =>
    intro s
    have hrest : ∀ e ∈ rest, e = SendEvent.recvTimeout ∨ ∃ r, e = SendEvent.recvOk r :=
      fun e' he' => hgood e' (List.mem_cons_of_mem _ he')
    by_cases hseg : segmentAt buf s.pos = []
    · rw [senderLoop_cons_break buf e rest s hseg]
    · rcases hgood e (List.mem_cons_self e rest) with he | ⟨r, he⟩
      · subst he
        rw [senderLoop_recvTimeout buf rest s hseg]
        exact ih hrest (lostStep buf s)
      · subst he
        rw [senderLoop_recvOk buf r rest s hseg]
        exact ih hrest (recvOkStep buf r s)

/-- In a 4096-byte buffer the chunk at position `k` of an all-timeout run
is the truncating slice at offset `(start + 40·k) mod 4096`. -/
theorem senderLoop_timeout_segments (buf : List Nat) (hL : buf.length = 4096) :
    ∀ (n : Nat) (s : SenderSt), s.pos < 4096 →
      ∀ k : Nat, k < n →
        (senderLoop buf (List.replicate n SendEvent.recvTimeout) s).segments.get? k
          = some (segmentAt buf ((s.pos + chunk_size * k) % 4096)) := by
  intro n
  induction n with
  | zero => intro s _ k hk; exact absurd hk (Nat.not_lt_zero k)
  | succ n ih =>
    intro s hs k hk
    have hseg : ¬ segmentAt buf s.pos = [] := by
      intro hnil
      have hlen : (segmentAt buf s.pos).length = 0 := by rw [hnil]; rfl
      rw [segmentAt, List.length_take, List.length_drop, hL] at hlen
      simp only [chunk_size] at hlen
      omega
    rw [List.replicate_succ, senderLoop_recvTimeout buf _ s hseg]
    have hpos1 : (lostStep buf s).pos = (s.pos + chunk_size) % 4096 := by
      simp [lostStep, afterSend, hL]
    cases k with
    | zero =>
      simp [Nat.mod_eq_of_lt hs]
    | succ k =>
      have hlt : (lostStep buf s).pos < 4096 := by
        rw [hpos1]; exact Nat.mod_lt _ (by norm_num)
      have hrec := ih (lostStep buf s) hlt k (by omega)
      have harith : ((s.pos + chunk_size) % 4096 + chunk_size * k) % 4096
          = (s.pos + chunk_size * (k + 1)) % 4096 := by
        simp only [chunk_size]
        omega
      simp only [List.get?_cons_succ]
      rw [hrec, hpos1, harith]

/-- C1 (counterexample): a trial whose single acknowledgment wait returns
`b''` (the peer closed the connection: neither the token nor a timeout)
ends with `packet_count = 1` but `ack_count = lost_count = 0`, so
`chunksSent ≠ acksReceived + chunksLost`. -/
theorem sender_accounting_cex :
    (senderLoop [0, 1, 2] [SendEvent.recvOk []] initSender).state.packet_count
      ≠ (senderLoop [0, 1, 2] [SendEvent.recvOk []] initSender).state.ack_count
        + (senderLoop [0, 1, 2] [SendEvent.recvOk []] initSender).state.lost_count := by
  decide

/-- C1 (amended): at trial end `chunksSent = acksReceived + chunksLost`
holds provided every iteration's acknowledgment wait resolved either by
receiving exactly the 3-byte token `b'ACK'` or by timing out; a wait that
returns any other data, or a mid-iteration error, leaves that chunk
unaccounted. -/
theorem sender_accounting_eq (buf : List Nat) (events : List SendEvent)
    (h : ∀ e ∈ events, e = SendEvent.recvOk ackBytes ∨ e = SendEvent.recvTimeout) :
    (senderLoop buf events initSender).state.packet_count
      = (senderLoop buf events initSender).state.ack_count
        + (senderLoop buf events initSender).state.lost_count :=
  (senderLoop_counts_eq buf events h initSender rfl).symm

/-- Witness for C1 (amended): a concrete trial with one acknowledged chunk
and one timed-out chunk satisfies the accounting equality. -/
theorem sender_accounting_eq_witness :
    (senderLoop [0, 1, 2] [SendEvent.recvOk ackBytes, SendEvent.recvTimeout]
        initSender).state.packet_count
      = (senderLoop [0, 1, 2] [SendEvent.recvOk ackBytes, SendEvent.recvTimeout]
          initSender).state.ack_count
        + (senderLoop [0, 1, 2] [SendEvent.recvOk ackBytes, SendEvent.recvTimeout]
            initSender).state.lost_count :=
  sender_accounting_eq [0, 1, 2] [SendEvent.recvOk ackBytes, SendEvent.recvTimeout]
    (by decide)

/-- C2 (counterexample): with the 4096-byte buffer `cbuf`, the 103rd chunk
of an all-timeout run (index 102) is the slice starting at offset 4080,
and it has 16 bytes, not `chunk_size = 40`: the Python slice
`data_buffer[4080:4120]` truncates at the end of the buffer instead of
wrapping around to bytes `[0:24]`. -/
theorem chunk103_is_16_bytes :
    (senderLoop cbuf (List.replicate 103 SendEvent.recvTimeout) initSender).segments.get? 102
        = some ((cbuf.drop 4080).take chunk_size) ∧
    ((cbuf.drop 4080).take chunk_size).length = 16 ∧
    ((cbuf.drop 4080).take chunk_size).length ≠ chunk_size := by
  have hL : cbuf.length = 4096 := by simp [cbuf]
  have hlen : ((cbuf.drop 4080).take chunk_size).length = 16 := by
    rw [List.length_take, List.length_drop, hL]
    simp [chunk_size]
  refine ⟨?_, hlen, by rw [hlen]; simp [chunk_size]⟩
  have hget := senderLoop_timeout_segments cbuf hL 103 initSender (by simp [initSender])
    102 (by norm_num)
  rw [hget]
  norm_num [initSender, chunk_size, segmentAt]

/-- C2 (amended): each chunk `k` (0-indexed) of an all-timeout run over a
4096-byte buffer is the truncating Python slice at offset
`(40·k) mod 4096`, of length `min 40 (4096 − offset)`: exactly 40 bytes
except when the offset is within 40 bytes of the buffer end, where the
chunk is shortened to the buffer tail (no wraparound inside a chunk); the
position then continues modulo 4096. -/
theorem sender_chunk_slices (buf : List Nat) (hL : buf.length = 4096)
    (n k : Nat) (hk : k < n) :
    (senderLoop buf (List.replicate n SendEvent.recvTimeout) initSender).segments.get? k
      = some ((buf.drop (chunk_size * k % 4096)).take chunk_size) ∧
    ((buf.drop (chunk_size * k % 4096)).take chunk_size).length
      = min chunk_size (4096 - chunk_size * k % 4096) := by
  constructor
  · have hget := senderLoop_timeout_segments buf hL n initSender (by simp [initSender]) k hk
    simpa [initSender, segmentAt] using hget
  · rw [List.length_take, List.length_drop, hL]

/-- Witness for C2 (amended): instantiated at the concrete buffer `cbuf`
and chunk index 102 of a 103-chunk run. -/
theorem sender_chunk_slices_witness :
    (senderLoop cbuf (List.replicate 103 SendEvent.recvTimeout) initSender).segments.get? 102
      = some ((cbuf.drop (chunk_size * 102 % 4096)).take chunk_size) :=
  (sender_chunk_slices cbuf (by simp [cbuf]) 103 102 (by norm_num)).1

/-- C3 (counterexample): a session whose first read raises ends with
`reported = none` — the receiver's statistics block in `process_client`
is skipped (the exception propagates to `launch_server`'s handler), so
no statistics are computed or reported on the error path. -/
theorem recv_error_reporting_cex :
    (launch_server [RecvEvent.err] 1).reported = none ∧
    (launch_server [RecvEvent.err] 1).errorLogged = true :=
  ⟨rfl, rfl⟩

/-- C3 (amended): a mid-session read error is caught and logged, both the
accepted connection and the listening socket are closed, and the error
never propagates as a crash; but the receiver's statistics are computed
and reported only when the loop ends by orderly (empty-read) closure —
on the error path nothing is reported. -/
theorem recv_error_handled (events : List RecvEvent) (elapsed : ℚ) :
    (launch_server events elapsed).crashed = false ∧
    (launch_server events elapsed).connClosed = true ∧
    (launch_server events elapsed).listenClosed = true ∧
    ((recvLoop events initRecv).errored = true →
      (launch_server events elapsed).errorLogged = true ∧
      (launch_server events elapsed).reported = none) ∧
    ((recvLoop events initRecv).errored = false →
      (launch_server events elapsed).reported
        = some (mkStats (recvLoop events initRecv).state elapsed)) := by
  cases hE : (recvLoop events initRecv).errored <;> simp [launch_server, hE]

/-- Witness for C3 (amended): a concrete session with one failing read is
logged, closed, and reports nothing. -/
theorem recv_error_handled_witness :
    (recvLoop [RecvEvent.err] initRecv).errored = true ∧
    (launch_server [RecvEvent.err] (1 : ℚ)).errorLogged = true ∧
    (launch_server [RecvEvent.err] (1 : ℚ)).reported = none :=
  ⟨rfl, ((recv_error_handled [RecvEvent.err] 1).2.2.2.1 rfl).1,
    ((recv_error_handled [RecvEvent.err] 1).2.2.2.1 rfl).2⟩

/-- C4 (counterexample): calling the sender with `rate = 0` raises the
pacing division-by-zero after `connect` but before the `try/finally`
region, so an error raised after the connection is established leaves the
socket closed zero times, not exactly once. -/
theorem close_every_path_cex :
    (transmit_data 0 [0] [] 1).connected = true ∧
    (transmit_data 0 [0] [] 1).raised = true ∧
    (transmit_data 0 [0] [] 1).closeCount = 0 := by
  refine ⟨?_, ?_, ?_⟩ <;> simp [transmit_data]

/-- C4 (amended): for every `rate ≠ 0` the sender's `finally` block closes
the connection exactly once on every exit path (normal expiry, per-chunk
timeout, or any error raised inside the send loop); the receiver closes
both the accepted connection and the listening socket on every session
exit path.  Only the pre-loop pacing computation with `rate = 0` escapes
before the protected region and leaves the sender's socket unclosed. -/
theorem close_exactly_once (rate : ℚ) (buf : List Nat) (events : List SendEvent)
    (elapsed : ℚ) (h : rate ≠ 0) :
    (transmit_data rate buf events elapsed).closeCount = 1 ∧
    ∀ (ev : List RecvEvent) (el : ℚ),
      (launch_server ev el).connClosed = true ∧
      (launch_server ev el).listenClosed = true := by
  constructor
  · simp [transmit_data, h]
  · intro ev el
    cases hE : (recvLoop ev initRecv).errored <;> simp [launch_server, hE]

/-- Witness for C4 (amended): a concrete trial at rate 40 closes its
socket exactly once, and a concrete receiver session closes both
sockets. -/
theorem close_exactly_once_witness :
    (transmit_data 40 [0] [SendEvent.recvTimeout] 1).closeCount = 1 ∧
    (launch_server [RecvEvent.ok []] 1).connClosed = true ∧
    (launch_server [RecvEvent.ok []] 1).listenClosed = true :=
  ⟨(close_exactly_once 40 [0] [SendEvent.recvTimeout] 1 (by norm_num)).1,
    ((close_exactly_once 40 [0] [SendEvent.recvTimeout] 1 (by norm_num)).2
      [RecvEvent.ok []] 1).1,
    ((close_exactly_once 40 [0] [SendEvent.recvTimeout] 1 (by norm_num)).2
      [RecvEvent.ok []] 1).2⟩

/-- C5: an acknowledgment timeout is recoverable: the iteration increments
`lost_count` by one and the loop continues with the remaining iterations
(same continuation as any successful iteration), and a run whose
iterations all resolve by timeout or by `recv` returning data never sets
the error flag — a timeout is never escalated to trial failure. -/
theorem ack_timeout_recoverable (buf : List Nat) (rest : List SendEvent)
    (s : SenderSt) (h : ¬ segmentAt buf s.pos = []) :
    senderLoop buf (SendEvent.recvTimeout :: rest) s
      = ⟨(senderLoop buf rest (lostStep buf s)).state,
         (senderLoop buf rest (lostStep buf s)).errored,
         segmentAt buf s.pos :: (senderLoop buf rest (lostStep buf s)).segments⟩ ∧
    (lostStep buf s).lost_count = s.lost_count + 1 ∧
    ∀ events : List SendEvent,
      (∀ e ∈ events, e = SendEvent.recvTimeout ∨ ∃ r, e = SendEvent.recvOk r) →
      (senderLoop buf events s).errored = false :=
  ⟨senderLoop_recvTimeout buf rest s h, rfl,
    fun events hgood => senderLoop_no_error buf events hgood s⟩

/-- Witness for C5: a concrete one-iteration trial whose wait times out
counts one loss and finishes without error. -/
theorem ack_timeout_recoverable_witness :
    (lostStep [0, 1, 2] initSender).lost_count = initSender.lost_count + 1 ∧
    (senderLoop [0, 1, 2] [SendEvent.recvTimeout] initSender).errored = false :=
  ⟨(ack_timeout_recoverable [0, 1, 2] [] initSender (by decide)).2.1,
    (ack_timeout_recoverable [0, 1, 2] [] initSender (by decide)).2.2
      [SendEvent.recvTimeout]
      (by intro e he; rw [List.mem_singleton] at he; subst he; exact Or.inl rfl)⟩

/-- C6: when delayed ACK is disabled on a platform without the
quick-acknowledgment attribute, both the client's and the server's
option-setting steps print the warning and neither lets the error escape:
startup is never aborted. -/
theorem quickack_unsupported_nonfatal (plat : Platform) (use_nagle : Bool)
    (h : plat.hasQuickack = false) :
    (set_client_options plat use_nagle false).warned = true ∧
    (set_client_options plat use_nagle false).raisedErr = false ∧
    (adjust_socket_options plat use_nagle false).warned = true ∧
    (adjust_socket_options plat use_nagle false).raisedErr = false := by
  simp [set_client_options, adjust_socket_options, h]

/-- Witness for C6: the concrete platform without `TCP_QUICKACK`. -/
theorem quickack_unsupported_nonfatal_witness :
    (set_client_options ⟨false⟩ true false).warned = true ∧
    (set_client_options ⟨false⟩ true false).raisedErr = false ∧
    (adjust_socket_options ⟨false⟩ true false).warned = true ∧
    (adjust_socket_options ⟨false⟩ true false).raisedErr = false :=
  quickack_unsupported_nonfatal ⟨false⟩ true rfl

/-- C7: for every completed trial the final `loss_ratio` lies in `[0, 1]`,
equals 0 when no packet was sent, and equals 0 when no chunk was lost. -/
theorem lossratio_in_unit_interval (buf : List Nat) (events : List SendEvent)
    (elapsed : ℚ) :
    0 ≤ (mkResult (senderLoop buf events initSender).state elapsed).loss ∧
    (mkResult (senderLoop buf events initSender).state elapsed).loss ≤ 1 ∧
    ((senderLoop buf events initSender).state.packet_count = 0 →
      (mkResult (senderLoop buf events initSender).state elapsed).loss = 0) ∧
    ((senderLoop buf events initSender).state.lost_count = 0 →
      (mkResult (senderLoop buf events initSender).state elapsed).loss = 0) := by
  have hle : (senderLoop buf events initSender).state.lost_count
      ≤ (senderLoop buf events initSender).state.packet_count := by
    have hc := senderLoop_counts_le buf events initSender (by simp [initSender])
    omega
  set s := (senderLoop buf events initSender).state
  by_cases hp : 0 < s.packet_count
  · simp only [mkResult, if_pos hp]
    refine ⟨by positivity, ?_, fun h0 => absurd hp (by omega), fun h0 => by simp [h0]⟩
    rw [div_le_one (by exact_mod_cast hp)]
    exact_mod_cast hle
  · simp [mkResult, hp]

/-- Witness for C7: the empty trial (no iterations) has loss 0, in
particular discharging the zero-packets case. -/
theorem lossratio_in_unit_interval_witness :
    (senderLoop [] [] initSender).state.packet_count = 0 ∧
    (mkResult (senderLoop [] [] initSender).state 1).loss = 0 :=
  ⟨rfl, (lossratio_in_unit_interval [] [] 1).2.2.1 rfl⟩

/-- C8: the finalized metrics agree with the spec formulas:
`throughputBps = bytesSent/elapsed`, `goodputBps = acks·chunkSize/elapsed`,
`dataRateBps = bytesReceived/elapsed`, each 0 when elapsed is 0; and each
side computes its record exactly once at loop exit — `transmit_data`
returns `mkResult` of the loop's final counters, and a receiver session
that ends by orderly closure reports `mkStats` of its final counters. -/
theorem metrics_match_spec (s : SenderSt) (rs : RecvState) (elapsed : ℚ)
    (h : 0 ≤ elapsed) :
    (mkResult s elapsed).throughput = specThroughput s.total_bytes elapsed ∧
    (mkResult s elapsed).goodput = specGoodput s.ack_count elapsed ∧
    (mkStats rs elapsed).data_rate = specDataRate rs.total_data elapsed ∧
    (∀ (rate : ℚ) (buf : List Nat) (events : List SendEvent), rate ≠ 0 →
      (transmit_data rate buf events elapsed).result
        = some (mkResult (senderLoop buf events initSender).state elapsed)) ∧
    (∀ events : List RecvEvent, (recvLoop events initRecv).errored = false →
      (launch_server events elapsed).reported
        = some (mkStats (recvLoop events initRecv).state elapsed)) := by
  have hsame : ∀ b : Nat, (if 0 < elapsed then (b : ℚ) / elapsed else 0)
      = if elapsed = 0 then 0 else (b : ℚ) / elapsed := by
    intro b
    rcases eq_or_lt_of_le h with h0 | hpos
    · rw [if_neg (by rw [← h0]; exact lt_irrefl 0), if_pos h0.symm]
    · rw [if_pos hpos, if_neg (ne_of_gt hpos)]
  refine ⟨hsame s.total_bytes, hsame (s.ack_count * chunk_size),
    hsame rs.total_data, fun rate buf events hr => ?_, fun events hE => ?_⟩
  · simp [transmit_data, hr]
  · simp [launch_server, hE]

/-- Witness for C8: at `elapsed = 0` every metric is 0 on both sides, and
a concrete nonzero-rate trial returns exactly the finalized record. -/
theorem metrics_match_spec_witness :
    (mkResult initSender 0).throughput = specThroughput initSender.total_bytes 0 ∧
    (transmit_data 40 [] [] 0).result
      = some (mkResult (senderLoop [] [] initSender).state 0) :=
  ⟨(metrics_match_spec initSender initRecv 0 le_rfl).1,
    (metrics_match_spec initSender initRecv 0 le_rfl).2.2.2.1 40 [] [] (by norm_num)⟩

/-- C9: the receiver's loop alternates strictly: a non-empty read updates
`total_data`, `packet_num` and `max_size` and is followed in the trace by
a write of exactly the 3 bytes `b'ACK'` before any further action; an
empty read is terminal — it ends the loop, ignores any later events, and
emits neither a count nor an acknowledgment. -/
theorem recv_strict_alternation (bytes : List Nat) (rest : List RecvEvent)
    (s : RecvState) :
    (bytes ≠ [] →
      recvLoop (RecvEvent.ok bytes :: rest) s
        = ⟨(recvLoop rest (recvStep s bytes)).state,
           (recvLoop rest (recvStep s bytes)).errored,
           SAction.read bytes :: SAction.write ackBytes ::
             (recvLoop rest (recvStep s bytes)).trace⟩ ∧
      (recvStep s bytes).packet_num = s.packet_num + 1 ∧
      (recvStep s bytes).total_data = s.total_data + bytes.length ∧
      (recvStep s bytes).max_size = max s.max_size bytes.length) ∧
    recvLoop (RecvEvent.ok [] :: rest) s = ⟨s, false, [SAction.read []]⟩ ∧
    ackBytes.length = 3 := by
  refine ⟨fun h => ⟨by simp [recvLoop, h], rfl, rfl, ?_⟩, by simp [recvLoop], rfl⟩
  show (if s.max_size < bytes.length then bytes.length else s.max_size)
      = max s.max_size bytes.length
  rw [Nat.max_def]
  split_ifs <;> omega

/-- Witness for C9: a concrete non-empty read of one byte is counted and
acknowledged with the 3-byte token. -/
theorem recv_strict_alternation_witness :
    recvLoop [RecvEvent.ok [5]] initRecv
      = ⟨recvStep initRecv [5], false,
         [SAction.read [5], SAction.write ackBytes]⟩ := by
  have hc := (recv_strict_alternation [5] [] initRecv).1 (by decide)
  exact hc.1

/-- C10: the pacing computation sits between `connect` and the send loop:
with `rate = 0` it divides by zero, raising to the caller before any
chunk is sent and before the `try/finally`, so the connected socket is
never closed on that path; for every `rate ≠ 0` the Python divisor
`rate / chunk_size` is nonzero and `sleep_interval` equals
`chunk_size / rate` seconds. -/
theorem pacing_rate_zero_divzero (buf : List Nat) (events : List SendEvent)
    (elapsed : ℚ) (rate : ℚ) (h : rate ≠ 0) :
    (transmit_data 0 buf events elapsed).raised = true ∧
    (transmit_data 0 buf events elapsed).connected = true ∧
    (transmit_data 0 buf events elapsed).closeCount = 0 ∧
    (transmit_data 0 buf events elapsed).finalState.packet_count = 0 ∧
    (transmit_data 0 buf events elapsed).result = none ∧
    rate / (chunk_size : ℚ) ≠ 0 ∧
    sleep_interval rate = (chunk_size : ℚ) / rate := by
  have hz : ∀ {α : Type} (f : TransmitOut → α),
      f (transmit_data 0 buf events elapsed)
        = f { result := none, finalState := initSender, errorCaught := false
              connected := true, closeCount := 0, raised := true } := by
    intro α f; rw [transmit_data, if_pos rfl]
  refine ⟨hz TransmitOut.raised, hz TransmitOut.connected, hz TransmitOut.closeCount,
    ?_, hz TransmitOut.result, ?_, ?_⟩
  · rw [hz (fun o => o.finalState.packet_count)]; rfl
  · exact div_ne_zero h (by norm_num [chunk_size])
  · rw [sleep_interval, one_div_div]

/-- Witness for C10: instantiated at `rate = 40`, where the pacing
interval is exactly one second. -/
theorem pacing_rate_zero_divzero_witness :
    (transmit_data 0 [] [] 1).raised = true ∧
    (transmit_data 0 [] [] 1).closeCount = 0 ∧
    sleep_interval 40 = (chunk_size : ℚ) / 40 :=
  ⟨(pacing_rate_zero_divzero [] [] 1 40 (by norm_num)).1,
    (pacing_rate_zero_divzero [] [] 1 40 (by norm_num)).2.2.1,
    (pacing_rate_zero_divzero [] [] 1 40 (by norm_num)).2.2.2.2.2.2⟩

end Task3
